import Mathlib

/-!
Shallow embedding of the signal-generation engine of the signal-stride-folio
repository, and proofs about the specified behaviour.

The engine lives in two Deno edge functions:
  * `src/unnamed/part_000` (the "entries" function): pattern detectors,
    volatility gate and `generateEntrySignals` — embedded in namespace `Entries`;
  * `src/supabase/functions/ict-signals/index.ts`: quarterly bias, liquidity
    pools, PD arrays and `generateICTSignal` — embedded in namespace `ICT`.

Modelling conventions:
  * JS numbers are modelled as exact rationals `ℚ`; the numeric literals of the
    source (0.25, 0.5, 0.75, 1.5, 3, thresholds) are written as the rationals
    they denote.  Division is rational division; the one place where the JS
    `NaN`/`Infinity` semantics of dividing by zero is reachable for well-formed
    bars (`detectDoji` on a zero-range bar) is modelled explicitly with a
    zero test, documented at the definition.
  * Timestamps are instants in milliseconds, modelled as `ℤ`.  The JS
    `new Date(year, month, day)` constructor (month 0-based) is modelled by
    `dateYMD` using the proleptic Gregorian calendar at midnight.
  * The single wall-clock read `new Date()` is made an explicit parameter of
    type `EvalDate` (the fields the source reads: year and 0-based month).
  * JS `arr.slice(-k)` is `sliceLast k`, `arr.slice(-a, -b)` is `sliceNeg a b`,
    `arr[i]` (in-bounds in the source) is `barAt`, and `Math.max(...)` /
    `Math.min(...)` over the (always nonempty) spread arguments are
    `maxQ` / `minQ`.
-/

/-- One OHLC bar as stored in the `market_data` table (interface `MarketData`
in both source files).  The field `open` of the source is called `open_`
because `open` is a Lean keyword. -/
structure MarketData where
  timestamp : ℤ
  asset : String
  open_ : ℚ
  high : ℚ
  low : ℚ
  close : ℚ
  volume : ℚ
deriving DecidableEq, Repr, Inhabited

/-- Directional bias, the TS union `'bullish' | 'bearish' | 'neutral'`. -/
inductive Bias where
  | bullish
  | bearish
  | neutral
deriving DecidableEq, Repr

/-- Two-valued direction, the TS union `'bullish' | 'bearish'` used for entry
signals and PD-array entry directions. -/
inductive Side where
  | bullish
  | bearish
deriving DecidableEq, Repr

/-- The string the source interpolates for a `Side` value (template literal
in the `PD_Array_Rejection_${entryBias}` strategy name). -/
def Side.name : Side → String
  | .bullish => "bullish"
  | .bearish => "bearish"

/-- Zone kind of the ict-signals `LiquidityZone` interface. -/
inductive ZoneType where
  | premium
  | equilibrium
  | discount
  | liquidity_pool
deriving DecidableEq, Repr

/-- The ict-signals `LiquidityZone` interface. -/
structure LiquidityZone where
  type : ZoneType
  price : ℚ
  strength : ℕ
deriving DecidableEq, Repr

/-- The ict-signals `TradeSignal` interface. -/
structure TradeSignal where
  asset : String
  timeframe : String
  bias : Bias
  entry_price : ℚ
  stop_loss : ℚ
  take_profit : ℚ
  liquidity_zones : List LiquidityZone
deriving DecidableEq, Repr

/-- The entries function's `EntrySignal` interface. -/
structure EntrySignal where
  asset : String
  timeframe : String
  strategy : String
  entry_price : ℚ
  stop_loss : ℚ
  take_profit : ℚ
  bias : Side
  confidence : ℚ
deriving DecidableEq, Repr

/-- JS `arr.slice(-k)`: the last `k` elements (the whole list when it is
shorter than `k`). -/
def sliceLast {α : Type*} (k : ℕ) (l : List α) : List α :=
  l.drop (l.length - k)

/-- JS `arr.slice(-a, -b)` for `a > b`: the elements from index
`max (len - a) 0` (inclusive) to index `max (len - b) 0` (exclusive);
truncated subtraction on `ℕ` matches the clamping of negative indices. -/
def sliceNeg {α : Type*} (a b : ℕ) (l : List α) : List α :=
  (l.take (l.length - b)).drop (l.length - a)

/-- JS in-bounds index access `data[i]`; every use in the source is guarded
by a length check, so the default value is never read. -/
def barAt (data : List MarketData) (i : ℕ) : MarketData :=
  data.getD i default

/-- `Math.max(...)` over a spread array; every use in the source is on a
nonempty array, so the `[]` case is unreachable. -/
def maxQ : List ℚ → ℚ
  | [] => 0
  | x :: xs => xs.foldl max x

/-- `Math.min(...)` over a spread array; every use in the source is on a
nonempty array. -/
def minQ : List ℚ → ℚ
  | [] => 0
  | x :: xs => xs.foldl min x

/-- `data[data.length - 1].close`, the last close of a (nonempty) series. -/
def lastClose (data : List MarketData) : ℚ :=
  (barAt data (data.length - 1)).close

/-- The true-range of a bar given the previous bar (identical code in both
source files): `max(high - low, |high - prevClose|, |low - prevClose|)`. -/
def trueRange (current previous : MarketData) : ℚ :=
  max (current.high - current.low)
    (max |current.high - previous.close| |current.low - previous.close|)

/-- The true-range list built by the `for (let i = 1; i < data.length; i++)`
loop shared by both `calculateATR` implementations: one true-range per
consecutive pair of bars, in series order. -/
def trueRanges : List MarketData → List ℚ
  | a :: b :: rest => trueRange b a :: trueRanges (b :: rest)
  | _ => []

/-- Gregorian leap-year test. -/
def isLeapYear (y : ℕ) : Bool :=
  (y % 4 == 0 && y % 100 != 0) || y % 400 == 0

/-- Days in the months before month `m` (0-based, as in JS `Date`). -/
def monthStartDays (leap : Bool) (m : ℕ) : ℕ :=
  (if leap then [0, 31, 60, 91, 121, 152, 182, 213, 244, 274, 305, 335]
   else [0, 31, 59, 90, 120, 151, 181, 212, 243, 273, 304, 334]).getD m 0

/-- Day number of the civil date `(y, m, d)` (month 0-based, day 1-based)
counted from year 0 in the proleptic Gregorian calendar. -/
def daysFromCivil (y m d : ℕ) : ℕ :=
  365 * y + (y + 3) / 4 - (y + 99) / 100 + (y + 399) / 400 +
    monthStartDays (isLeapYear y) m + (d - 1)

/-- The instant (in milliseconds) of JS `new Date(y, m, d)` at midnight;
month is 0-based exactly as in the source. -/
def dateYMD (y m d : ℕ) : ℤ :=
  (daysFromCivil y m d : ℤ) * 86400000

/-- The two fields of the wall-clock `new Date()` that the engine reads:
`getFullYear()` and the 0-based `getMonth()`. -/
structure EvalDate where
  year : ℕ
  month : ℕ
deriving DecidableEq, Repr

/-- `new Date(currentDate.getFullYear(), 2, 31)` — end of Q1 (Mar 31). -/
def q1End (today : EvalDate) : ℤ := dateYMD today.year 2 31

/-- `new Date(currentDate.getFullYear(), 5, 30)` — end of Q2 (Jun 30). -/
def q2End (today : EvalDate) : ℤ := dateYMD today.year 5 30

/-- `new Date(currentDate.getFullYear(), 8, 30)` — end of Q3 (Sep 30). -/
def q3End (today : EvalDate) : ℤ := dateYMD today.year 8 30

/-- The Q1 filter of `analyzeQuarterlyBias`:
`data.filter(d => new Date(d.timestamp) <= q1End)`. -/
def q1Window (today : EvalDate) (data : List MarketData) : List MarketData :=
  data.filter fun d => decide (d.timestamp ≤ q1End today)

/-- The Q2 filter of both quarterly-bias functions:
`data.filter(d => date <= q2End && date > q1End)`. -/
def q2Window (today : EvalDate) (data : List MarketData) : List MarketData :=
  data.filter fun d => decide (d.timestamp ≤ q2End today ∧ q1End today < d.timestamp)

/-- The Q3 filter of both quarterly-bias functions:
`data.filter(d => date <= q3End && date > q2End)`. -/
def q3Window (today : EvalDate) (data : List MarketData) : List MarketData :=
  data.filter fun d => decide (d.timestamp ≤ q3End today ∧ q2End today < d.timestamp)

namespace Entries

/-- Result shape `{ bullish: boolean; bearish: boolean }` returned by
`detectEngulfing` and `detectTurtleSoup`. -/
structure BullBear where
  bullish : Bool
  bearish : Bool
deriving DecidableEq, Repr

/-- `detectEngulfing` (part_000 lines 36-55). -/
def detectEngulfing (data : List MarketData) : BullBear :=
  if data.length < 2 then ⟨false, false⟩ else
  let current := barAt data (data.length - 1)
  let previous := barAt data (data.length - 2)
  { bullish := decide (previous.close < previous.open_ ∧ current.open_ < current.close ∧
      current.open_ < previous.close ∧ previous.open_ < current.close)
    bearish := decide (previous.open_ < previous.close ∧ current.close < current.open_ ∧
      previous.close < current.open_ ∧ current.close < previous.open_) }

/-- `detectDoji` (part_000 lines 57-61).  The source computes
`bodySize / range <= 0.001` on IEEE numbers: when `range` is zero the quotient
is `NaN` (body zero) or `±Infinity`, and in either case the comparison is
false, so the zero-range case is made explicit here; for nonzero `range` the
rational quotient is the exact value of the idealized computation. -/
def detectDoji (candle : MarketData) : Bool :=
  let bodySize := |candle.close - candle.open_|
  let range := candle.high - candle.low
  if range = 0 then false else decide (bodySize / range ≤ 1/1000)

/-- `detectTurtleSoup` (part_000 lines 64-85). -/
def detectTurtleSoup (data : List MarketData) : BullBear :=
  if data.length < 22 then ⟨false, false⟩ else
  let recent := sliceLast 22 data
  let last20 := recent.take 20
  let breakoutCandles := sliceLast 2 recent
  let high20 := maxQ (last20.map (·.high))
  let low20 := minQ (last20.map (·.low))
  let c0 := barAt breakoutCandles 0
  let c1 := barAt breakoutCandles 1
  { bullish := decide (c0.low < low20 ∧ low20 < c1.close)
    bearish := decide (high20 < c0.high ∧ c1.close < high20) }

/-- `detectCRT` (part_000 lines 88-103).  `range / midPoint` is rational
division; the JS value diverges from it only when `midPoint = 0`, which
requires a bar price at or below zero and is unreachable for the positive
prices of the data model. -/
def detectCRT (data : List MarketData) : Bool :=
  if data.length < 6 then false else
  let recent := sliceLast 6 data
  let rangeHigh := maxQ (recent.map (·.high))
  let rangeLow := minQ (recent.map (·.low))
  let range := rangeHigh - rangeLow
  let midPoint := (rangeHigh + rangeLow) / 2
  decide (range / midPoint ≤ 5/1000)

/-- Zone classification of `analyzePDArrays`, the TS union
`'premium' | 'equilibrium' | 'discount'`. -/
inductive PDZone where
  | premium
  | equilibrium
  | discount
deriving DecidableEq, Repr

/-- Result record of `analyzePDArrays`. -/
structure PDArraysResult where
  premium : ℚ
  equilibrium : ℚ
  discount : ℚ
  current : ℚ
  zone : PDZone
deriving DecidableEq, Repr

/-- `analyzePDArrays` (part_000 lines 106-134). -/
def analyzePDArrays (data : List MarketData) : PDArraysResult :=
  let recentData := sliceLast 20 data
  if recentData.length < 20 then ⟨0, 0, 0, 0, .equilibrium⟩ else
  let rangeHigh := maxQ (recentData.map (·.high))
  let rangeLow := minQ (recentData.map (·.low))
  let range := rangeHigh - rangeLow
  let premium := rangeLow + range * (3/4)
  let equilibrium := rangeLow + range * (1/2)
  let discount := rangeLow + range * (1/4)
  let current := lastClose data
  let zone : PDZone :=
    if premium ≤ current then .premium
    else if current ≤ discount then .discount
    else .equilibrium
  ⟨premium, equilibrium, discount, current, zone⟩

/-- Result record of `detectPDArrayEntries`. -/
structure PDEntriesResult where
  rejection : Bool
  breakout : Bool
  direction : Option Side
deriving DecidableEq, Repr

/-- `detectPDArrayEntries` (part_000 lines 137-174); the early returns of the
source become an if-chain (the zone tests are mutually exclusive). -/
def detectPDArrayEntries (data : List MarketData) (pdArrays : PDArraysResult) :
    PDEntriesResult :=
  if data.length < 3 then ⟨false, false, none⟩ else
  let recent := sliceLast 3 data
  let current := barAt recent 2
  let previous := barAt recent 1
  if pdArrays.zone = .premium ∧ pdArrays.premium ≤ previous.high ∧
      current.close < previous.low then ⟨true, false, some .bearish⟩
  else if pdArrays.zone = .discount ∧ previous.low ≤ pdArrays.discount ∧
      previous.high < current.close then ⟨true, false, some .bullish⟩
  else if pdArrays.premium < current.close then ⟨false, true, some .bullish⟩
  else if current.close < pdArrays.discount then ⟨false, true, some .bearish⟩
  else ⟨false, false, none⟩

/-- Result record of `analyzeIPDA`. -/
structure IPDAResult where
  shouldBuy : Bool
  shouldSell : Bool
  phase : String
deriving DecidableEq, Repr

/-- `analyzeIPDA` (part_000 lines 177-196); the wall-clock read becomes the
`today` parameter, and the unused `data` parameter of the source is kept. -/
def analyzeIPDA (today : EvalDate) (_data : List MarketData)
    (pdArrays : PDArraysResult) : IPDAResult :=
  let currentQuarter := today.month / 3 + 1
  if currentQuarter = 2 ∧ pdArrays.zone = .discount then ⟨true, false, "Q2_Markup"⟩
  else if currentQuarter = 3 ∧ pdArrays.zone = .premium then ⟨false, true, "Q3_Distribution"⟩
  else ⟨false, false, "Neutral"⟩

/-- `calculateATR` (part_000 lines 199-215).  The source default `period = 20`
is passed explicitly at the one call site that omits it. -/
def calculateATR (data : List MarketData) (period : ℕ) : ℚ :=
  if data.length < period + 1 then 0
  else (sliceLast period (trueRanges data)).sum / (period : ℚ)

/-- Result record of `analyzeVolatility`. -/
structure VolatilityResult where
  isHighVolatility : Bool
  currentATR : ℚ
  avgATR : ℚ
deriving DecidableEq, Repr

/-- `analyzeVolatility` (part_000 lines 218-227). -/
def analyzeVolatility (data : List MarketData) : VolatilityResult :=
  let currentATR := calculateATR (sliceLast 14 data) 14
  let avgATR := calculateATR (sliceNeg 34 14 data) 20
  ⟨decide (avgATR < currentATR), currentATR, avgATR⟩

/-- `getQuarterlyBias` (part_000 lines 230-259); the unused `currentQuarter`
and `yearStart` bindings of the source are dropped. -/
def getQuarterlyBias (today : EvalDate) (data : List MarketData) : Bias :=
  if data.length < 60 then .neutral else
  let q2Data := q2Window today data
  let q3Data := q3Window today data
  if q2Data.length = 0 then .neutral else
  let q2High := maxQ (q2Data.map (·.high))
  let q3Low := if 0 < q3Data.length then minQ (q3Data.map (·.low)) else q2High
  let currentPrice := lastClose data
  if q2High < currentPrice then .bullish
  else if currentPrice < q3Low then .bearish
  else .neutral

/-- `generateEntrySignals` (part_000 lines 262-409); the nine conditional
`signals.push` calls become an in-order concatenation of conditional
singletons. -/
def generateEntrySignals (today : EvalDate) (asset : String)
    (data : List MarketData) : List EntrySignal :=
  if data.length < 60 then [] else
  let currentPrice := lastClose data
  let atr := calculateATR data 20
  let volatility := analyzeVolatility data
  let bias := getQuarterlyBias today data
  let pdArrays := analyzePDArrays data
  if volatility.isHighVolatility = false then [] else
  let engulfing := detectEngulfing data
  let _hasDoji := detectDoji (barAt data (data.length - 1))
  let turtleSoup := detectTurtleSoup data
  let crt := detectCRT data
  let pdEntries := detectPDArrayEntries data pdArrays
  let ipda := analyzeIPDA today data pdArrays
  (if engulfing.bullish = true ∧ bias ≠ .bearish then
    [⟨asset, "5min", "Bullish_Engulfing", currentPrice,
      currentPrice - atr * (3/2), currentPrice + atr * 3, .bullish, 7/10⟩] else []) ++
  (if engulfing.bearish = true ∧ bias ≠ .bullish then
    [⟨asset, "5min", "Bearish_Engulfing", currentPrice,
      currentPrice + atr * (3/2), currentPrice - atr * 3, .bearish, 7/10⟩] else []) ++
  (if turtleSoup.bullish = true then
    [⟨asset, "5min", "Turtle_Soup_Bullish", currentPrice,
      currentPrice - atr * (3/2), currentPrice + atr * 3, .bullish, 8/10⟩] else []) ++
  (if turtleSoup.bearish = true then
    [⟨asset, "5min", "Turtle_Soup_Bearish", currentPrice,
      currentPrice + atr * (3/2), currentPrice - atr * 3, .bearish, 8/10⟩] else []) ++
  (if crt = true ∧ bias = .bullish ∧ pdArrays.equilibrium < currentPrice then
    [⟨asset, "5min", "CRT_Breakout_Bullish", currentPrice,
      currentPrice - atr * (3/2), currentPrice + atr * 3, .bullish, 6/10⟩] else []) ++
  (if crt = true ∧ bias = .bearish ∧ currentPrice < pdArrays.equilibrium then
    [⟨asset, "5min", "CRT_Breakout_Bearish", currentPrice,
      currentPrice + atr * (3/2), currentPrice - atr * 3, .bearish, 6/10⟩] else []) ++
  (match pdEntries.direction, pdEntries.rejection with
   | some entryBias, true =>
     [⟨asset, "5min", "PD_Array_Rejection_" ++ entryBias.name, currentPrice,
       (match entryBias with
        | .bullish => currentPrice - atr * (3/2)
        | .bearish => currentPrice + atr * (3/2)),
       (match entryBias with
        | .bullish => currentPrice + atr * 3
        | .bearish => currentPrice - atr * 3),
       entryBias, 3/4⟩]
   | _, _ => []) ++
  (if ipda.shouldBuy = true ∧ bias ≠ .bearish then
    [⟨asset, "5min", "IPDA_Discount_Buy", currentPrice,
      currentPrice - atr * (3/2), currentPrice + atr * 3, .bullish, 85/100⟩] else []) ++
  (if ipda.shouldSell = true ∧ bias ≠ .bullish then
    [⟨asset, "5min", "IPDA_Premium_Sell", currentPrice,
      currentPrice + atr * (3/2), currentPrice - atr * 3, .bearish, 85/100⟩] else [])

end Entries

namespace ICT

/-- `analyzeQuarterlyBias` (ict-signals lines 42-68); unlike the entries
variant it also filters Q1 bars and returns neutral when either the Q1 or the
Q2 window is empty. -/
def analyzeQuarterlyBias (today : EvalDate) (data : List MarketData) : Bias :=
  if data.length < 60 then .neutral else
  let q1Data := q1Window today data
  let q2Data := q2Window today data
  let q3Data := q3Window today data
  if q1Data.length = 0 ∨ q2Data.length = 0 then .neutral else
  let q2High := maxQ (q2Data.map (·.high))
  let q3Low := if 0 < q3Data.length then minQ (q3Data.map (·.low)) else q2High
  let currentPrice := lastClose data
  if q2High < currentPrice then .bullish
  else if currentPrice < q3Low then .bearish
  else .neutral

/-- The 0.5% relative-tolerance test of `identifyLiquidityPools`:
`Math.abs(x - base) / base <= tolerance`.  Rational division (with the
`x/0 = 0` convention) agrees with the JS value whenever `base ≠ 0`; a zero
price is excluded by the data model. -/
def tolMatch (x base : ℚ) : Bool :=
  decide (|x - base| / base ≤ 5/1000)

/-- One of the two identical scan loops of `identifyLiquidityPools`
(ict-signals lines 79-97 for highs, 100-117 for lows): for each interior
index `i` count the values at indices `i+1 ≤ j < min (i+10) len` within
tolerance of the value at `i` (the running counter starts at 1 for the bar
at `i` itself) and emit a pool when the count reaches 2. -/
def poolScan (xs : List ℚ) : List LiquidityZone :=
  (List.range' 1 (xs.length - 2)).filterMap fun i =>
    let base := xs.getD i 0
    let cnt := 1 + (List.range' (i+1) (min (i+10) xs.length - (i+1))).countP
      fun j => tolMatch (xs.getD j 0) base
    if 2 ≤ cnt then some ⟨.liquidity_pool, base, cnt⟩ else none

/-- `identifyLiquidityPools` (ict-signals lines 71-120): the high scan
followed by the low scan, concatenated without deduplication. -/
def identifyLiquidityPools (data : List MarketData) : List LiquidityZone :=
  poolScan (data.map (·.high)) ++ poolScan (data.map (·.low))

/-- `calculatePDArrays` (ict-signals lines 123-150). -/
def calculatePDArrays (data : List MarketData) : List LiquidityZone :=
  let recentData := sliceLast 20 data
  if recentData.length < 20 then [] else
  let rangeHigh := maxQ (recentData.map (·.high))
  let rangeLow := minQ (recentData.map (·.low))
  let range := rangeHigh - rangeLow
  [⟨.premium, rangeLow + range * (3/4), 3⟩,
   ⟨.equilibrium, rangeLow + range * (1/2), 2⟩,
   ⟨.discount, rangeLow + range * (1/4), 3⟩]

/-- `detectLiquidityEvents` (ict-signals lines 153-179); the for-loop with an
early `return true` becomes `List.any` over the pools. -/
def detectLiquidityEvents (data : List MarketData)
    (liquidityPools : List LiquidityZone) : Bool :=
  if data.length < 5 then false else
  let recentData := sliceLast 5 data
  let avgVolume := ((sliceLast 20 data).map (·.volume)).sum / 20
  let hasVolumeSpike := recentData.any fun d => decide (avgVolume * 2 < d.volume)
  let breakData := recentData.take 3
  let reversalData := sliceLast 3 recentData
  liquidityPools.any fun pool =>
    (breakData.any fun d => decide (pool.price < d.high ∨ d.low < pool.price)) &&
    (reversalData.any fun d =>
      (decide (pool.price < d.close) && breakData.any fun bd => decide (bd.low < pool.price)) ||
      (decide (d.close < pool.price) && breakData.any fun bd => decide (pool.price < bd.high))) &&
    hasVolumeSpike

/-- The one-argument `calculateATR` of ict-signals (lines 227-243): the
average of all true ranges of the series. -/
def calculateATR (data : List MarketData) : ℚ :=
  if data.length < 2 then 0
  else (trueRanges data).sum / ((trueRanges data).length : ℚ)

/-- `generateICTSignal` (ict-signals lines 182-224). -/
def generateICTSignal (today : EvalDate) (asset : String)
    (data : List MarketData) : Option TradeSignal :=
  if data.length < 60 then none else
  let bias := analyzeQuarterlyBias today data
  let liquidityPools := identifyLiquidityPools data
  let pdArrays := calculatePDArrays data
  let hasLiquidityEvent := detectLiquidityEvents data liquidityPools
  if bias = .neutral ∨ hasLiquidityEvent = false then none else
  let currentPrice := lastClose data
  let atr := calculateATR (sliceLast 14 data)
  if bias = .bullish then
    let entry_price :=
      match pdArrays.find? (fun z => decide (z.type = .discount)) with
      | some z => z.price
      | none => currentPrice
    some ⟨asset, "5min", bias, entry_price, entry_price - atr * (3/2),
      entry_price + atr * 3, liquidityPools ++ pdArrays⟩
  else
    let entry_price :=
      match pdArrays.find? (fun z => decide (z.type = .premium)) with
      | some z => z.price
      | none => currentPrice
    some ⟨asset, "5min", bias, entry_price, entry_price + atr * (3/2),
      entry_price - atr * 3, liquidityPools ++ pdArrays⟩

end ICT

namespace Spec

/-- The spec's trailing-window rangeHigh: `max(high)` over the trailing
20 bars. -/
def rangeHigh (data : List MarketData) : ℚ :=
  maxQ ((data.rtake 20).map (·.high))

/-- The spec's trailing-window rangeLow: `min(low)` over the trailing
20 bars. -/
def rangeLow (data : List MarketData) : ℚ :=
  minQ ((data.rtake 20).map (·.low))

/-- The spec's "ATR over the most recent 14 bars": the two-argument ATR
applied to the window of the last 14 bars. -/
def recentATR (data : List MarketData) : ℚ :=
  Entries.calculateATR (data.rtake 14) 14

/-- The spec's "ATR over the 20 bars immediately preceding that 14-bar
window". -/
def priorATR (data : List MarketData) : ℚ :=
  Entries.calculateATR ((data.rdrop 14).rtake 20) 20

/-- The liquidity-pool scan as the claim words it, parametrised by how many
subsequent bars are examined: for each interior index `i`, count the bars at
the next up-to-`window` indices (`i < j ≤ i + window`, `j` in range) whose
value is within 0.5% relative tolerance of the value at `i`, plus one for the
bar at `i` itself, and emit a pool with that count as strength when it
reaches 2. -/
def poolScanWithin (window : ℕ) (xs : List ℚ) : List LiquidityZone :=
  (List.range' 1 (xs.length - 2)).filterMap fun i =>
    let base := xs.getD i 0
    let cnt := 1 + (List.range' (i+1) window).countP
      fun j => decide (j < xs.length) && ICT.tolMatch (xs.getD j 0) base
    if 2 ≤ cnt then some ⟨.liquidity_pool, base, cnt⟩ else none

/-- The claim's reading of `liquidityPools` with a 10-bar look-ahead
("the next up-to-10 highs (respectively lows)"). -/
def liquidityPools10 (data : List MarketData) : List LiquidityZone :=
  poolScanWithin 10 (data.map (·.high)) ++ poolScanWithin 10 (data.map (·.low))

/-- The amended reading of `liquidityPools` with a 9-bar look-ahead, which is
what the source loop bound `j < min(i + 10, length)` actually examines. -/
def liquidityPools9 (data : List MarketData) : List LiquidityZone :=
  poolScanWithin 9 (data.map (·.high)) ++ poolScanWithin 9 (data.map (·.low))

/-- The quarterly-bias rule exactly as the claim words it (no length or
emptiness guard): bullish if the last close strictly exceeds the Q2-window
maximum high, bearish if it is strictly below the Q3-window minimum low,
where the Q2 maximum high stands in for that minimum when the Q3 window is
empty, and neutral otherwise. -/
def quarterlyBias (today : EvalDate) (data : List MarketData) : Bias :=
  let q2High := maxQ ((q2Window today data).map (·.high))
  let q3Low := if (q3Window today data).length = 0 then q2High
    else minQ ((q3Window today data).map (·.low))
  if q2High < lastClose data then .bullish
  else if lastClose data < q3Low then .bearish
  else .neutral

end Spec

/-- The invariant claimed for every emitted `EntrySignal`, relative to the ATR
used by the synthesizer: the fixed 1.5x/3x stop and target distances, the
price ordering, and the 2:1 reward-to-risk identity. -/
def entrySignalOK (atr : ℚ) (s : EntrySignal) : Prop :=
  (s.bias = Side.bullish →
    s.stop_loss = s.entry_price - atr * (3/2) ∧
    s.take_profit = s.entry_price + atr * 3 ∧
    s.stop_loss < s.entry_price ∧ s.entry_price < s.take_profit ∧
    s.take_profit - s.entry_price = 2 * (s.entry_price - s.stop_loss)) ∧
  (s.bias = Side.bearish →
    s.stop_loss = s.entry_price + atr * (3/2) ∧
    s.take_profit = s.entry_price - atr * 3 ∧
    s.take_profit < s.entry_price ∧ s.entry_price < s.stop_loss ∧
    s.entry_price - s.take_profit = 2 * (s.stop_loss - s.entry_price))

/-- The same invariant for an ict-signals `TradeSignal`. -/
def tradeSignalOK (atr : ℚ) (s : TradeSignal) : Prop :=
  (s.bias = Bias.bullish →
    s.stop_loss = s.entry_price - atr * (3/2) ∧
    s.take_profit = s.entry_price + atr * 3 ∧
    s.stop_loss < s.entry_price ∧ s.entry_price < s.take_profit ∧
    s.take_profit - s.entry_price = 2 * (s.entry_price - s.stop_loss)) ∧
  (s.bias = Bias.bearish →
    s.stop_loss = s.entry_price + atr * (3/2) ∧
    s.take_profit = s.entry_price - atr * 3 ∧
    s.take_profit < s.entry_price ∧ s.entry_price < s.stop_loss ∧
    s.entry_price - s.take_profit = 2 * (s.stop_loss - s.entry_price))

/-- A well-formed sample bar used by concrete witnesses: open and close equal
`c`, which lies between `l` and `h`. -/
def sampleBar (ts : ℤ) (h l c : ℚ) : MarketData :=
  ⟨ts, "XAUUSD", c, h, l, c, 0⟩

/-- A 20-bar window whose range is [90, 110]: the concrete zone-computation
instance of claim C6. -/
def zoneBars : List MarketData :=
  List.replicate 20 (sampleBar 0 110 90 100)

/-- A 34-bar series for the C2 witness. -/
def volBars : List MarketData :=
  List.replicate 34 (sampleBar 0 110 90 100)

/-- A 10-bar series (shorter than the 60-bar gate) for the C3 witness. -/
def shortBars : List MarketData :=
  List.replicate 10 (sampleBar 0 110 90 100)

/-- Three bars with distinct closes for the C5 witness. -/
def atrBars : List MarketData :=
  [sampleBar 0 110 90 100, sampleBar 1 112 92 102, sampleBar 2 108 88 98]

/-- The high prices of the C8 counterexample series: pairwise farther than
0.5% apart except for the value 100 at indices 1 and 11, which are exactly
ten positions apart — inside the claim's 10-bar look-ahead but outside the
source's 9-bar loop. -/
def poolHighs : List ℚ :=
  [1000, 100, 200, 300, 400, 500, 600, 700, 800, 900, 1100, 100]

/-- The 12-bar C8 counterexample series (lows sit 10 below the highs, so the
low scan has the same shape with values 90 apart at indices 1 and 11). -/
def poolBars : List MarketData :=
  poolHighs.map fun h => sampleBar 0 h (h - 10) (h - 5)

/-- The evaluation date used by the concrete quarterly-bias inputs
(June 2025; only the year is read by the quarterly functions). -/
def sampleDate : EvalDate := ⟨2025, 6⟩

/-- A bar dated May 1 of the evaluation year: inside the Q2 window. -/
def q2SampleBar : MarketData := sampleBar (dateYMD 2025 4 1) 100 90 95

/-- A bar dated Aug 15 of the evaluation year: inside the Q3 window, closing
at 200, above every Q2-window high. -/
def q3SampleBar : MarketData := sampleBar (dateYMD 2025 7 15) 250 90 200

/-- The 60-bar C9 counterexample series: 59 Q2 bars with high 100 and a final
Q3 bar closing at 200.  No bar is at or before Mar 31, so the ict-signals
variant's Q1 window is empty. -/
def quarterBars : List MarketData :=
  List.replicate 59 q2SampleBar ++ [q3SampleBar]

theorem sliceLast_length {α : Type*} (k : ℕ) (l : List α) :
    (sliceLast k l).length = min k l.length := by
  simp [sliceLast]
  omega

theorem mem_of_mem_sliceLast {α : Type*} {k : ℕ} {l : List α} {a : α}
    (h : a ∈ sliceLast k l) : a ∈ l :=
  List.mem_of_mem_drop h

theorem calculateATR_of_short (data : List MarketData) (period : ℕ)
    (h : data.length < period + 1) : Entries.calculateATR data period = 0 := by
  rw [Entries.calculateATR, if_pos h]

/-- Both windows handed to `calculateATR` by `analyzeVolatility` are too
short for their periods (at most 14 bars for period 14, at most 20 bars for
period 20), so both ATRs are 0 and the comparison `0 > 0` is false. -/
theorem analyzeVolatility_eq (data : List MarketData) :
    Entries.analyzeVolatility data = ⟨false, 0, 0⟩ := by
  have h1 : Entries.calculateATR (sliceLast 14 data) 14 = 0 :=
    calculateATR_of_short _ _ (by rw [sliceLast_length]; omega)
  have h2 : Entries.calculateATR (sliceNeg 34 14 data) 20 = 0 :=
    calculateATR_of_short _ _ (by simp [sliceNeg]; omega)
  simp [Entries.analyzeVolatility, h1, h2]

/-- The volatility gate therefore rejects every series and the synthesizer
emits nothing. -/
theorem generateEntrySignals_eq_nil (today : EvalDate) (asset : String)
    (data : List MarketData) : Entries.generateEntrySignals today asset data = [] := by
  simp only [Entries.generateEntrySignals, analyzeVolatility_eq]
  split
  · rfl
  · simp

/-- C1: for every input series (any length, any contents) the Signal
Synthesizer `generateEntrySignals` returns the empty list, because
`analyzeVolatility` computes `currentATR` over the last 14 bars with
period 14 and `avgATR` over at most 20 bars with period 20, both of which
fall under the fewer-than-period-plus-one guard of `calculateATR` and
return 0, so `isHighVolatility` is `0 > 0 = false` and the volatility gate
always rejects. -/
theorem claim_C1_synthesizer_always_empty (today : EvalDate) (asset : String)
    (data : List MarketData) :
    (Entries.analyzeVolatility data).currentATR = 0 ∧
    (Entries.analyzeVolatility data).avgATR = 0 ∧
    (Entries.analyzeVolatility data).isHighVolatility = false ∧
    Entries.generateEntrySignals today asset data = [] := by
  rw [analyzeVolatility_eq]
  exact ⟨rfl, rfl, rfl, generateEntrySignals_eq_nil today asset data⟩

/-- C2: for every series with enough bars to populate both windows,
`isHighVolatility` is true iff the ATR over the most recent 14 bars strictly
exceeds the ATR over the 20 bars immediately preceding that window (both
sides of the equivalence are in fact always false). -/
theorem claim_C2_isHighVolatility_comparison (data : List MarketData)
    (h : 34 ≤ data.length) :
    (Entries.analyzeVolatility data).isHighVolatility = true ↔
      Spec.priorATR data < Spec.recentATR data := by
  have hrecent : Spec.recentATR data = Entries.calculateATR (sliceLast 14 data) 14 := rfl
  have hprior : Spec.priorATR data = Entries.calculateATR (sliceNeg 34 14 data) 20 := by
    unfold Spec.priorATR List.rtake List.rdrop sliceNeg
    rw [List.length_take]
    congr 2
    omega
  have h1 : Entries.calculateATR (sliceLast 14 data) 14 = 0 :=
    calculateATR_of_short _ _ (by rw [sliceLast_length]; omega)
  have h2 : Entries.calculateATR (sliceNeg 34 14 data) 20 = 0 :=
    calculateATR_of_short _ _ (by simp [sliceNeg]; omega)
  rw [analyzeVolatility_eq, hrecent, hprior, h1, h2]
  simp

/-- Witness for C2 at a concrete 34-bar series. -/
theorem claim_C2_witness :
    ((Entries.analyzeVolatility volBars).isHighVolatility = true ↔
      Spec.priorATR volBars < Spec.recentATR volBars) :=
  claim_C2_isHighVolatility_comparison volBars (by simp [volBars])

/-- C3: the synthesizer emits the empty sequence (a neutral result, not an
error) for every series shorter than 60 bars, and for every series on which
`isHighVolatility` is false, regardless of the pattern detectors. -/
theorem claim_C3_gate_empty (today : EvalDate) (asset : String)
    (data : List MarketData) :
    (data.length < 60 → Entries.generateEntrySignals today asset data = []) ∧
    ((Entries.analyzeVolatility data).isHighVolatility = false →
      Entries.generateEntrySignals today asset data = []) :=
  ⟨fun _ => generateEntrySignals_eq_nil today asset data,
   fun _ => generateEntrySignals_eq_nil today asset data⟩

/-- Witness for C3 at a concrete 10-bar series (both hypotheses hold there). -/
theorem claim_C3_witness :
    Entries.generateEntrySignals sampleDate "XAUUSD" shortBars = [] :=
  (claim_C3_gate_empty sampleDate "XAUUSD" shortBars).1 (by simp [shortBars])

theorem trueRanges_length : ∀ l : List MarketData, (trueRanges l).length = l.length - 1
  | [] => rfl
  | [_] => rfl
  | a :: b :: rest => by
    rw [show trueRanges (a :: b :: rest) = trueRange b a :: trueRanges (b :: rest) from rfl]
    rw [List.length_cons, trueRanges_length (b :: rest)]
    simp

/-- C5: for every series and every period (at least 1), `calculateATR`
returns 0 when the series has fewer than `period + 1` bars, and otherwise
returns the arithmetic mean of exactly the last `period` true-range values
ending at the series tail; the one-argument ict-signals `calculateATR`
coincides with the two-argument one at period `length - 1` whenever it has
the two bars it requires. -/
theorem claim_C5_atr (data : List MarketData) (period : ℕ) (hp : 1 ≤ period) :
    (data.length < period + 1 → Entries.calculateATR data period = 0) ∧
    (period + 1 ≤ data.length →
      ((trueRanges data).rtake period).length = period ∧
      Entries.calculateATR data period = ((trueRanges data).rtake period).sum / (period : ℚ)) ∧
    (2 ≤ data.length →
      ICT.calculateATR data = Entries.calculateATR data (data.length - 1)) := by
  have hlen : (trueRanges data).length = data.length - 1 := trueRanges_length data
  refine ⟨fun h => calculateATR_of_short data period h, fun h => ⟨?_, ?_⟩, fun h2 => ?_⟩
  · show (sliceLast period (trueRanges data)).length = period
    rw [sliceLast_length]
    omega
  · rw [Entries.calculateATR, if_neg (by omega)]
    rfl
  · rw [ICT.calculateATR, if_neg (by omega), Entries.calculateATR, if_neg (by omega)]
    have hall : sliceLast (data.length - 1) (trueRanges data) = trueRanges data := by
      unfold sliceLast
      rw [hlen, Nat.sub_self, List.drop_zero]
    rw [hall, hlen]

/-- Witness for C5 at a concrete 3-bar series with period 1. -/
theorem claim_C5_witness :
    Entries.calculateATR atrBars 1 = ((trueRanges atrBars).rtake 1).sum / (1 : ℚ) ∧
    ICT.calculateATR atrBars = Entries.calculateATR atrBars (atrBars.length - 1) := by
  have h := claim_C5_atr atrBars 1 (by decide)
  exact ⟨(h.2.1 (by decide)).2, h.2.2 (by decide)⟩

/-- C6: for every series with at least 20 bars the zone computation over the
trailing 20-bar window yields discount, equilibrium and premium at one, two
and three quarters of the window range above the window low, in both the
entries function (`analyzePDArrays`) and the ict-signals function
(`calculatePDArrays`). -/
theorem claim_C6_zone_levels (data : List MarketData) (h : 20 ≤ data.length) :
    (Entries.analyzePDArrays data).discount =
      Spec.rangeLow data + (Spec.rangeHigh data - Spec.rangeLow data) * (1/4) ∧
    (Entries.analyzePDArrays data).equilibrium =
      Spec.rangeLow data + (Spec.rangeHigh data - Spec.rangeLow data) * (1/2) ∧
    (Entries.analyzePDArrays data).premium =
      Spec.rangeLow data + (Spec.rangeHigh data - Spec.rangeLow data) * (3/4) ∧
    ICT.calculatePDArrays data =
      [⟨.premium, Spec.rangeLow data + (Spec.rangeHigh data - Spec.rangeLow data) * (3/4), 3⟩,
       ⟨.equilibrium, Spec.rangeLow data + (Spec.rangeHigh data - Spec.rangeLow data) * (1/2), 2⟩,
       ⟨.discount, Spec.rangeLow data + (Spec.rangeHigh data - Spec.rangeLow data) * (1/4), 3⟩] := by
  have hlen : ¬ ((sliceLast 20 data).length < 20) := by
    rw [sliceLast_length]; omega
  have hhi : Spec.rangeHigh data = maxQ ((sliceLast 20 data).map (·.high)) := rfl
  have hlo : Spec.rangeLow data = minQ ((sliceLast 20 data).map (·.low)) := rfl
  rw [Entries.analyzePDArrays, if_neg hlen, ICT.calculatePDArrays, if_neg hlen, hhi, hlo]
  exact ⟨rfl, rfl, rfl, rfl⟩

set_option maxRecDepth 4000 in
/-- Witness for C6 at the concrete 20-bar window with rangeHigh 110 and
rangeLow 90: discount 95, equilibrium 100, premium 105 exactly. -/
theorem claim_C6_witness :
    (Entries.analyzePDArrays zoneBars).discount = 95 ∧
    (Entries.analyzePDArrays zoneBars).equilibrium = 100 ∧
    (Entries.analyzePDArrays zoneBars).premium = 105 ∧
    ICT.calculatePDArrays zoneBars =
      [⟨.premium, 105, 3⟩, ⟨.equilibrium, 100, 2⟩, ⟨.discount, 95, 3⟩] := by
  have h := claim_C6_zone_levels zoneBars (by simp [zoneBars])
  have hhi : Spec.rangeHigh zoneBars = 110 := rfl
  have hlo : Spec.rangeLow zoneBars = 90 := rfl
  rw [hhi, hlo] at h
  refine ⟨h.1.trans (by norm_num), h.2.1.trans (by norm_num), h.2.2.1.trans (by norm_num),
    h.2.2.2.trans (by norm_num)⟩

/-- Counterexample for C7 as stated: the claim asserts that a bar with zero
range (high = low) is classified as doji, but the source computes
`0 / 0 = NaN` there and `NaN <= 0.001` is false, so `detectDoji` returns
false on a flat bar. -/
theorem claim_C7_counterexample :
    (⟨0, "XAUUSD", 100, 100, 100, 100, 0⟩ : MarketData).high =
      (⟨0, "XAUUSD", 100, 100, 100, 100, 0⟩ : MarketData).low ∧
    Entries.detectDoji ⟨0, "XAUUSD", 100, 100, 100, 100, 0⟩ = false := by
  constructor
  · rfl
  · norm_num [Entries.detectDoji]

/-- C7 (amended): the doji detector classifies a bar as doji iff its range is
nonzero and body/range is at most 0.001; in particular a bar with
open = close and high > low is a doji, a bar whose body is 50% of its range
is not, and a bar with zero range is classified as NOT doji (the claim as
stated said such a bar is a doji). -/
theorem claim_C7_amended_doji (c : MarketData) :
    (Entries.detectDoji c = true ↔
      (c.high - c.low ≠ 0 ∧ |c.close - c.open_| / (c.high - c.low) ≤ 1/1000)) ∧
    (c.open_ = c.close → c.low < c.high → Entries.detectDoji c = true) ∧
    (|c.close - c.open_| = (c.high - c.low) / 2 → c.high ≠ c.low →
      Entries.detectDoji c = false) ∧
    (c.high = c.low → Entries.detectDoji c = false) := by
  by_cases hr : c.high - c.low = 0
  · refine ⟨?_, ?_, ?_, ?_⟩
    · rw [Entries.detectDoji]
      simp [hr]
    · intro _ hlt
      exfalso
      have : c.high = c.low := by linarith
      linarith
    · intro _ hne
      exfalso
      exact hne (by linarith)
    · intro _
      rw [Entries.detectDoji]
      simp [hr]
  · refine ⟨?_, ?_, ?_, ?_⟩
    · rw [Entries.detectDoji]
      simp [hr]
    · intro hoc hlt
      rw [Entries.detectDoji]
      simp only [if_neg hr, decide_eq_true_eq]
      rw [hoc, sub_self, abs_zero, zero_div]
      norm_num
    · intro hbody hne
      rw [Entries.detectDoji]
      simp only [if_neg hr, decide_eq_false_iff_not, not_le]
      have h12 : (c.high - c.low) / 2 / (c.high - c.low) = 1 / 2 := by
        rw [div_div, mul_comm, ← div_div, div_self hr]
      rw [hbody, h12]
      norm_num
    · intro heq
      exact absurd (by linarith : c.high - c.low = 0) hr

/-- Witness for C7 (amended) at a concrete doji bar (open = close = 100,
range [99, 101]). -/
theorem claim_C7_witness :
    Entries.detectDoji ⟨0, "XAUUSD", 100, 101, 99, 100, 0⟩ = true :=
  (claim_C7_amended_doji ⟨0, "XAUUSD", 100, 101, 99, 100, 0⟩).2.1 rfl (by norm_num)

/-- Counting over `range' a k` with an explicit in-range test equals counting
over the clamped range `range' a (min (a + k) n - a)` that the source loop
bound `j < min (i + 10) n` produces. -/
theorem countP_range'_clamped (p : ℕ → Bool) :
    ∀ (k a n : ℕ), (List.range' a k).countP (fun j => decide (j < n) && p j) =
      (List.range' a (min (a + k) n - a)).countP p := by
  intro k
  induction k with
  | zero =>
    intro a n
    have h0 : min (a + 0) n - a = 0 := by omega
    rw [h0]
    rfl
  | succ k ih =>
    intro a n
    rw [List.range'_succ, List.countP_cons]
    rcases lt_or_ge a n with han | han
    · have hmin : min (a + (k + 1)) n - a = (min (a + 1 + k) n - (a + 1)) + 1 := by omega
      rw [hmin, List.range'_succ, List.countP_cons, ih (a + 1) n]
      have hd : (decide (a < n) && p a) = p a := by simp [han]
      rw [hd]
    · have hmin : min (a + (k + 1)) n - a = 0 := by omega
      have hmin' : min (a + 1 + k) n - (a + 1) = 0 := by omega
      have hd : (decide (a < n) && p a) = false := by simp; omega
      rw [hmin, hd, ih (a + 1) n, hmin']
      simp

/-- The source's scan loop equals the spec-side scan with a 9-bar
look-ahead. -/
theorem poolScan_eq_within9 (xs : List ℚ) :
    ICT.poolScan xs = Spec.poolScanWithin 9 xs := by
  rw [ICT.poolScan, Spec.poolScanWithin]
  apply List.filterMap_congr
  intro i _
  have h := countP_range'_clamped
    (fun j => ICT.tolMatch (xs.getD j 0) (xs.getD i 0)) 9 (i + 1) xs.length
  rw [show i + 1 + 9 = i + 10 from by omega] at h
  simp only [← h]

set_option maxHeartbeats 1600000 in
/-- Counterexample for C8 as stated: on a 12-bar series whose only matching
pair of highs (value 100) sits at indices 1 and 11 — ten positions apart —
the source emits no pool at all (its loop examines only the next 9 highs),
while the claim's 10-bar look-ahead predicts a pool of strength 2 at price
100 (and one at 90 from the lows). -/
theorem claim_C8_counterexample :
    ICT.identifyLiquidityPools poolBars = [] ∧
    Spec.liquidityPools10 poolBars =
      [⟨.liquidity_pool, 100, 2⟩, ⟨.liquidity_pool, 90, 2⟩] := by
  constructor
  · norm_num [ICT.identifyLiquidityPools, ICT.poolScan, ICT.tolMatch, poolBars, poolHighs,
      sampleBar, List.range', List.filterMap_cons, List.countP_cons, List.getD]
  · norm_num [Spec.liquidityPools10, Spec.poolScanWithin, ICT.tolMatch, poolBars, poolHighs,
      sampleBar, List.range', List.filterMap_cons, List.countP_cons, List.getD]

/-- C8 (amended): `identifyLiquidityPools` emits, for each interior index i,
a pool Zone at the high (respectively low) at i with strength equal to the
count of matching bars, exactly when the count of the next up-to-NINE highs
(respectively lows) lying within 0.5% relative tolerance of that price, plus
the bar at i itself, reaches at least 2 (the claim as stated said up-to-ten,
but the source loop bound `j < min(i + 10, length)` stops at offset 9); high
pools and low pools are computed independently and concatenated without
deduplication. -/
theorem claim_C8_amended_pools (data : List MarketData) :
    ICT.identifyLiquidityPools data = Spec.liquidityPools9 data := by
  rw [ICT.identifyLiquidityPools, Spec.liquidityPools9,
    poolScan_eq_within9, poolScan_eq_within9]

theorem trueRange_nonneg (c p : MarketData) : 0 ≤ trueRange c p :=
  le_trans (abs_nonneg (c.high - p.close))
    (le_trans (le_max_left _ _) (le_max_right _ _))

theorem trueRanges_nonneg (l : List MarketData) : ∀ x ∈ trueRanges l, 0 ≤ x := by
  induction l with
  | nil => intro x hx; simp [trueRanges] at hx
  | cons a t ih =>
    cases t with
    | nil => intro x hx; simp [trueRanges] at hx
    | cons b r =>
      intro x hx
      rw [show trueRanges (a :: b :: r) = trueRange b a :: trueRanges (b :: r) from rfl] at hx
      rcases List.mem_cons.1 hx with h | h
      · rw [h]; exact trueRange_nonneg b a
      · exact ih x h

/-- A list of nonnegative rationals summing to zero is all zeros. -/
theorem eq_zero_of_sum_zero {l : List ℚ} (hpos : ∀ x ∈ l, 0 ≤ x)
    (hsum : l.sum = 0) : ∀ x ∈ l, x = 0 := by
  induction l with
  | nil => intro x hx; cases hx
  | cons a t ih =>
    have ha0 : 0 ≤ a := hpos a (List.mem_cons_self a t)
    have ht0 : 0 ≤ t.sum := List.sum_nonneg fun x hx => hpos x (List.mem_cons_of_mem a hx)
    rw [List.sum_cons] at hsum
    have ha : a = 0 := by linarith
    intro x hx
    rcases List.mem_cons.1 hx with h | h
    · rw [h]; exact ha
    · exact ih (fun y hy => hpos y (List.mem_cons_of_mem a hy)) (by linarith) x h

/-- If every true range of `p :: t` is zero and every bar of `t` is
well-formed (close between low and high), then every bar of `t` is flat at
the close of `p`. -/
theorem flat_of_trueRanges_zero :
    ∀ (t : List MarketData) (p : MarketData),
      (∀ b ∈ t, b.low ≤ b.close ∧ b.close ≤ b.high) →
      (∀ x ∈ trueRanges (p :: t), x = 0) →
      ∀ b ∈ t, b.high = p.close ∧ b.low = p.close ∧ b.close = p.close := by
  intro t
  induction t with
  | nil => intro p _ _ b hb; cases hb
  | cons q rest ih =>
    intro p hval h0 b hb
    have hcons : trueRanges (p :: q :: rest) = trueRange q p :: trueRanges (q :: rest) := rfl
    have htr : trueRange q p = 0 := h0 _ (by rw [hcons]; exact List.mem_cons_self _ _)
    have hbound1 : |q.high - p.close| ≤ 0 := by
      calc |q.high - p.close| ≤ max |q.high - p.close| |q.low - p.close| := le_max_left _ _
        _ ≤ trueRange q p := le_max_right _ _
        _ = 0 := htr
    have hbound2 : |q.low - p.close| ≤ 0 := by
      calc |q.low - p.close| ≤ max |q.high - p.close| |q.low - p.close| := le_max_right _ _
        _ ≤ trueRange q p := le_max_right _ _
        _ = 0 := htr
    have hqh : q.high = p.close := by
      have := abs_eq_zero.1 (le_antisymm hbound1 (abs_nonneg _))
      linarith
    have hql : q.low = p.close := by
      have := abs_eq_zero.1 (le_antisymm hbound2 (abs_nonneg _))
      linarith
    have hqv := hval q (List.mem_cons_self _ _)
    have hqc : q.close = p.close := le_antisymm (hqh ▸ hqv.2) (hql ▸ hqv.1)
    rcases List.mem_cons.1 hb with h | h
    · rw [h]; exact ⟨hqh, hql, hqc⟩
    · have hrest := ih q (fun x hx => hval x (List.mem_cons_of_mem _ hx))
        (fun x hx => h0 x (by rw [hcons]; exact List.mem_cons_of_mem _ hx)) b h
      exact ⟨hrest.1.trans hqc, hrest.2.1.trans hqc, hrest.2.2.trans hqc⟩

/-- If a series of at least 60 well-formed bars has any liquidity event, the
14-bar ATR used by `generateICTSignal` is strictly positive: a zero ATR
forces the last 14 bars to sit flat at a single price, and a flat tail can
satisfy no pool's break-then-reversal condition. -/
theorem ict_atr_pos (data : List MarketData) (h60 : 60 ≤ data.length)
    (hval : ∀ b ∈ data, b.low ≤ b.close ∧ b.close ≤ b.high)
    (pools : List LiquidityZone)
    (hev : ICT.detectLiquidityEvents data pools = true) :
    0 < ICT.calculateATR (sliceLast 14 data) := by
  have helen : (sliceLast 14 data).length = 14 := by rw [sliceLast_length]; omega
  rw [ICT.calculateATR, if_neg (by omega)]
  have htrlen : (trueRanges (sliceLast 14 data)).length = 13 := by
    rw [trueRanges_length, helen]
  have hnn : 0 ≤ (trueRanges (sliceLast 14 data)).sum :=
    List.sum_nonneg (trueRanges_nonneg _)
  rcases lt_or_eq_of_le hnn with hpos | hzero
  · rw [htrlen]
    exact div_pos hpos (by norm_num)
  · exfalso
    have hall : ∀ x ∈ trueRanges (sliceLast 14 data), x = 0 :=
      eq_zero_of_sum_zero (trueRanges_nonneg _) hzero.symm
    obtain ⟨p, t, hpt⟩ : ∃ p t, sliceLast 14 data = p :: t := by
      cases he : sliceLast 14 data with
      | nil => rw [he] at helen; simp at helen
      | cons p t => exact ⟨p, t, rfl⟩
    have hmemt : ∀ b ∈ t, b ∈ data := by
      intro b hb
      have : b ∈ sliceLast 14 data := by rw [hpt]; exact List.mem_cons_of_mem _ hb
      exact mem_of_mem_sliceLast this
    have hflat : ∀ b ∈ t, b.high = p.close ∧ b.low = p.close ∧ b.close = p.close :=
      flat_of_trueRanges_zero t p (fun b hb => hval b (hmemt b hb))
        (by rw [← hpt]; exact hall)
    have hrec : sliceLast 5 data = t.drop 8 := by
      have hdp : sliceLast 5 data = (sliceLast 14 data).drop 9 := by
        unfold sliceLast
        rw [List.drop_drop]
        congr 1
        omega
      rw [hdp, hpt]
      rfl
    have hmem5 : ∀ b ∈ sliceLast 5 data, b ∈ t := by
      intro b hb
      rw [hrec] at hb
      exact List.mem_of_mem_drop hb
    rw [ICT.detectLiquidityEvents, if_neg (by omega)] at hev
    simp only [List.any_eq_true, Bool.and_eq_true, Bool.or_eq_true,
      decide_eq_true_eq] at hev
    obtain ⟨pool, _, ⟨_, hrev⟩, _⟩ := hev
    obtain ⟨d, hd, hcase⟩ := hrev
    have hd5 : d ∈ sliceLast 5 data := mem_of_mem_sliceLast hd
    have hdflat := hflat d (hmem5 d hd5)
    rcases hcase with ⟨hdc, bd, hbd, hbdlow⟩ | ⟨hdc, bd, hbd, hbdhigh⟩
    · have hbd5 : bd ∈ sliceLast 5 data := List.mem_of_mem_take hbd
      have hbdflat := hflat bd (hmem5 bd hbd5)
      rw [hdflat.2.2] at hdc
      rw [hbdflat.2.1] at hbdlow
      linarith
    · have hbd5 : bd ∈ sliceLast 5 data := List.mem_of_mem_take hbd
      have hbdflat := hflat bd (hmem5 bd hbd5)
      rw [hdflat.2.2] at hdc
      rw [hbdflat.1] at hbdhigh
      linarith

theorem tradeSignalOK_bullish (asset tf : String) (zones : List LiquidityZone)
    (entry atr : ℚ) (hatr : 0 < atr) :
    tradeSignalOK atr ⟨asset, tf, Bias.bullish, entry, entry - atr * (3/2),
      entry + atr * 3, zones⟩ := by
  refine ⟨fun _ => ⟨rfl, rfl, ?_, ?_, ?_⟩, fun hb => Bias.noConfusion hb⟩
  · show entry - atr * (3/2) < entry
    linarith
  · show entry < entry + atr * 3
    linarith
  · show (entry + atr * 3) - entry = 2 * (entry - (entry - atr * (3/2)))
    ring

theorem tradeSignalOK_bearish (asset tf : String) (zones : List LiquidityZone)
    (entry atr : ℚ) (hatr : 0 < atr) :
    tradeSignalOK atr ⟨asset, tf, Bias.bearish, entry, entry + atr * (3/2),
      entry - atr * 3, zones⟩ := by
  refine ⟨fun hb => Bias.noConfusion hb, fun _ => ⟨rfl, rfl, ?_, ?_, ?_⟩⟩
  · show entry - atr * 3 < entry
    linarith
  · show entry < entry + atr * (3/2)
    linarith
  · show entry - (entry - atr * 3) = 2 * ((entry + atr * (3/2)) - entry)
    ring

/-- C4: every signal emitted by the engine respects the fixed 1.5x/3x ATR
stop and target distances, the strict price ordering
stop_loss < entry_price < take_profit for bullish signals (mirrored for
bearish), and the 2:1 reward-to-risk identity
take_profit - entry_price = 2 x (entry_price - stop_loss); this holds for
every `EntrySignal` of `generateEntrySignals` (vacuously, since the
volatility gate always rejects) and for every `TradeSignal` of
`generateICTSignal`, given well-formed input bars. -/
theorem claim_C4_signal_invariants (today : EvalDate) (asset : String)
    (data : List MarketData)
    (hval : ∀ b ∈ data, b.low ≤ b.close ∧ b.close ≤ b.high) :
    (∀ s ∈ Entries.generateEntrySignals today asset data,
      entrySignalOK (Entries.calculateATR data 20) s) ∧
    (∀ s, ICT.generateICTSignal today asset data = some s →
      tradeSignalOK (ICT.calculateATR (sliceLast 14 data)) s) := by
  constructor
  · rw [generateEntrySignals_eq_nil]
    intro s hs
    exact absurd hs (List.not_mem_nil s)
  · intro s hs
    simp only [ICT.generateICTSignal] at hs
    by_cases h60 : data.length < 60
    · rw [if_pos h60] at hs
      exact Option.noConfusion hs
    rw [if_neg h60] at hs
    by_cases hgate : ICT.analyzeQuarterlyBias today data = Bias.neutral ∨
        ICT.detectLiquidityEvents data (ICT.identifyLiquidityPools data) = false
    · rw [if_pos hgate] at hs
      exact Option.noConfusion hs
    rw [if_neg hgate] at hs
    push_neg at hgate
    have hev : ICT.detectLiquidityEvents data (ICT.identifyLiquidityPools data) = true := by
      have := hgate.2
      simpa using this
    have hatr : 0 < ICT.calculateATR (sliceLast 14 data) :=
      ict_atr_pos data (by omega) hval _ hev
    by_cases hbull : ICT.analyzeQuarterlyBias today data = Bias.bullish
    · rw [if_pos hbull, hbull] at hs
      rw [← Option.some.inj hs]
      exact tradeSignalOK_bullish _ _ _ _ _ hatr
    · have hbear : ICT.analyzeQuarterlyBias today data = Bias.bearish := by
        cases hq : ICT.analyzeQuarterlyBias today data with
        | bullish => exact absurd hq hbull
        | bearish => rfl
        | neutral => exact absurd hq hgate.1
      rw [if_neg hbull, hbear] at hs
      rw [← Option.some.inj hs]
      exact tradeSignalOK_bearish _ _ _ _ _ hatr

/-- Witness for C4 at a concrete (empty, vacuously well-formed) series. -/
theorem claim_C4_witness :
    (∀ s ∈ Entries.generateEntrySignals sampleDate "XAUUSD" [],
      entrySignalOK (Entries.calculateATR [] 20) s) ∧
    (∀ s, ICT.generateICTSignal sampleDate "XAUUSD" [] = some s →
      tradeSignalOK (ICT.calculateATR (sliceLast 14 [])) s) :=
  claim_C4_signal_invariants sampleDate "XAUUSD" [] (by simp)

set_option maxRecDepth 8000 in
/-- Counterexample for C9 as stated: on a concrete 60-bar series whose Q2
window is non-empty (59 bars with high 100) and whose last close 200 strictly
exceeds the Q2-window maximum high, the ict-signals `analyzeQuarterlyBias` —
one of the two functions the claim covers — returns neutral rather than
bullish, because no bar of the series lies at or before Mar 31 and its extra
Q1-window guard fires. -/
theorem claim_C9_counterexample :
    60 ≤ quarterBars.length ∧ (q2Window sampleDate quarterBars).length ≠ 0 ∧
    maxQ ((q2Window sampleDate quarterBars).map (·.high)) < lastClose quarterBars ∧
    ICT.analyzeQuarterlyBias sampleDate quarterBars = Bias.neutral :=
  ⟨by decide, by decide, by decide, by decide⟩

/-- C9 (amended): with fewer than 60 bars both quarterly-bias functions
return neutral; with at least 60 bars and a non-empty Q2 window the entries
`getQuarterlyBias` follows exactly the claimed rule (bullish iff the last
close strictly exceeds the Q2-window maximum high, else bearish iff it is
strictly below the Q3-window minimum low with the Q2 high standing in when
the Q3 window is empty, else neutral); the ict-signals `analyzeQuarterlyBias`
follows the same rule only when additionally some bar lies at or before
Mar 31, and returns neutral whenever its Q1 window is empty (the amendment
the counterexample forces). -/
theorem claim_C9_amended_quarterly (today : EvalDate) (data : List MarketData) :
    (data.length < 60 → Entries.getQuarterlyBias today data = .neutral ∧
      ICT.analyzeQuarterlyBias today data = .neutral) ∧
    (60 ≤ data.length → (q2Window today data).length ≠ 0 →
      Entries.getQuarterlyBias today data = Spec.quarterlyBias today data) ∧
    (60 ≤ data.length → (q1Window today data).length ≠ 0 →
      (q2Window today data).length ≠ 0 →
      ICT.analyzeQuarterlyBias today data = Spec.quarterlyBias today data) ∧
    (60 ≤ data.length → (q1Window today data).length = 0 →
      ICT.analyzeQuarterlyBias today data = .neutral) := by
  refine ⟨fun h => ⟨?_, ?_⟩, fun h60 hq2 => ?_, fun h60 hq1 hq2 => ?_, fun h60 hq1 => ?_⟩
  · rw [Entries.getQuarterlyBias, if_pos h]
  · rw [ICT.analyzeQuarterlyBias, if_pos h]
  · rw [Entries.getQuarterlyBias, if_neg (by omega), Spec.quarterlyBias]
    simp only [if_neg hq2]
    rcases Nat.eq_zero_or_pos (q3Window today data).length with h3 | h3
    · simp [h3]
    · simp [h3, h3.ne']
  · rw [ICT.analyzeQuarterlyBias, if_neg (by omega), Spec.quarterlyBias]
    simp only [if_neg (by simp [hq1, hq2] : ¬ ((q1Window today data).length = 0 ∨
      (q2Window today data).length = 0))]
    rcases Nat.eq_zero_or_pos (q3Window today data).length with h3 | h3
    · simp [h3]
    · simp [h3, h3.ne']
  · rw [ICT.analyzeQuarterlyBias, if_neg (by omega), if_pos (Or.inl hq1)]

set_option maxRecDepth 8000 in
/-- Witness for C9 (amended) at the concrete 60-bar series: the entries
variant agrees with the claimed rule there. -/
theorem claim_C9_witness :
    Entries.getQuarterlyBias sampleDate quarterBars =
      Spec.quarterlyBias sampleDate quarterBars :=
  (claim_C9_amended_quarterly sampleDate quarterBars).2.1 (by decide) (by decide)

/-- C10: the pipeline is deterministic — two invocations of
`generateEntrySignals` on identical inputs and the identical wall-clock
evaluation date produce identical signal sequences (the embedding is a pure
function of the explicit date parameter and the series). -/
theorem claim_C10_deterministic (t₁ t₂ : EvalDate) (a₁ a₂ : String)
    (d₁ d₂ : List MarketData) (ht : t₁ = t₂) (ha : a₁ = a₂) (hd : d₁ = d₂) :
    Entries.generateEntrySignals t₁ a₁ d₁ = Entries.generateEntrySignals t₂ a₂ d₂ := by
  rw [ht, ha, hd]

/-- Witness for C10 at concrete arguments. -/
theorem claim_C10_witness :
    Entries.generateEntrySignals sampleDate "XAUUSD" shortBars =
      Entries.generateEntrySignals sampleDate "XAUUSD" shortBars :=
  claim_C10_deterministic _ _ _ _ _ _ rfl rfl rfl
